import Mathlib

/-!
Verification development for the varlock GitHub action (`src/index.ts`).

The action shells out to the external `varlock` binary, parses its output,
and relays configuration values to the host CI platform.  We embed the
source shallowly:

* JS scalar values that can appear in a config entry become `JsValue`.
* The host platform primitives (`core.info`, `core.warning`, `core.setFailed`,
  `core.setSecret`, `core.exportVariable`, `core.setOutput`) are modelled as
  an explicit effect trace: each routine returns the `List HostEffect` it
  emits, in emission order.
* Subprocess execution (`execSync`) and `JSON.parse` are external
  capabilities; they enter as function parameters (`exec`, `parse`,
  `readdir`), so each source function stays a pure function of its inputs
  plus the behaviour of the outside world.
* Thrown JS errors are modelled with `Except`: `execSync` failures carry an
  optional captured stdout, a `JSON.parse` failure carries none.
-/

namespace VarlockAction

/-- A JS scalar value as it can appear in `config[key].value` (typed `any`
in the source).  `undef` is JS `undefined`. -/
inductive JsValue where
  | undef
  | null
  | bool (b : Bool)
  | num (n : Int)
  | str (s : String)
  deriving DecidableEq, Repr

/-- The presence test used by both export routines:
`itemInfo.value !== undefined && itemInfo.value !== null`. -/
def isPresent (v : JsValue) : Bool :=
  (v ≠ JsValue.undef) && (v ≠ JsValue.null)

/-- JS `String(value)` restricted to the scalar values in scope. -/
def jsToString : JsValue → String
  | .undef => "undefined"
  | .null => "null"
  | .bool true => "true"
  | .bool false => "false"
  | .num n => toString n
  | .str s => s

/-- One entry of `SerializedEnvGraph.config`. -/
structure ConfigItem where
  value : JsValue
  isSensitive : Bool
  deriving DecidableEq, Repr

/-- One entry of `SerializedEnvGraph.sources`. -/
structure SourceInfo where
  label : String
  enabled : Bool
  path : Option String := none
  deriving DecidableEq, Repr

/-- The `SerializedEnvGraph.settings` record. -/
structure GraphSettings where
  redactLogs : Option Bool := none
  preventLeaks : Option Bool := none
  deriving DecidableEq, Repr

/-- The `SerializedEnvGraph` interface.  `config` is a JS object, i.e. an
ordered record with unique keys; we embed it as the association list that
`Object.entries` yields, in insertion order. -/
structure SerializedEnvGraph where
  basePath : Option String := none
  sources : List SourceInfo := []
  settings : GraphSettings := {}
  config : List (String × ConfigItem) := []
  deriving DecidableEq, Repr

/-- One call to a host-platform primitive from `@actions/core`. -/
inductive HostEffect where
  | info (msg : String)
  | warning (msg : String)
  | setFailed (msg : String)
  | setSecret (value : String)
  | exportVariable (key value : String)
  | setOutput (name value : String)
  deriving DecidableEq, Repr

/-- The parsed action inputs (`ActionInputs`); `outputFormat` is kept as a
raw string because the source cast performs no runtime check. -/
structure ActionInputs where
  workingDirectory : String
  showSummary : Bool
  failOnError : Bool
  outputFormat : String
  deriving DecidableEq, Repr

/-- An `execSync` failure: the optional `stdout` capture of the error object and
its `message`. -/
structure ExecFailure where
  stdout : Option String := none
  message : String := ""
  deriving DecidableEq, Repr

/-- Result of one `execSync` call. -/
inductive ExecOutcome where
  | success (stdout : String)
  | failure (err : ExecFailure)
  deriving DecidableEq, Repr

/-- An error thrown inside `runVarlockLoad`: either the rethrown `execSync`
error, or the `JSON.parse` SyntaxError raised on unparseable stdout of a
zero-exit run (which has no `stdout` property). -/
inductive JsError where
  | execError (err : ExecFailure)
  | parseError (msg : String)
  deriving DecidableEq, Repr

/-- JS truthiness of `error.stdout`: absent or empty string is falsy. -/
def stdoutTruthy : Option String → Bool
  | some s => s ≠ ""
  | none => false

def JsError.message : JsError → String
  | .execError err => err.message
  | .parseError msg => msg

/-- Model of `getInputs()`: reads the four action inputs, with the source defaults
(empty input falls back to `.` resp. `env`; booleans compare to `"true"`). -/
def getInputs (getInput : String → String) : ActionInputs :=
  { workingDirectory := if getInput "working-directory" = "" then "." else getInput "working-directory"
    showSummary := getInput "show-summary" = "true"
    failOnError := getInput "fail-on-error" = "true"
    outputFormat := if getInput "output-format" = "" then "env" else getInput "output-format" }

/-- Model of `checkVarlockInstalled()`: true iff `varlock --version` exits zero. -/
def checkVarlockInstalled (exec : String → ExecOutcome) : Bool :=
  match exec "varlock --version" with
  | .success _ => true
  | .failure _ => false

/-- JS `s.startsWith(pre)`, as a kernel-reducible character-list prefix
test (extensionally the prefix relation on strings). -/
def strStartsWith (s pre : String) : Bool :=
  pre.toList.isPrefixOf s.toList

/-- Model of `checkForEnvFiles(workingDir)`: lists the directory (the `readdir`
capability returns `none` when `readdirSync` throws) and looks for a file
named exactly `.env` or starting with `.env.`; returns the boolean result
together with the emitted effects.  The warning message interpolates the
thrown error object in the source; we keep the directory part. -/
def checkForEnvFiles (readdir : String → Option (List String))
    (workingDir : String) : Bool × List HostEffect :=
  match readdir workingDir with
  | some files =>
    let envFiles := files.filter (fun file => file = ".env" || strStartsWith file ".env.")
    if envFiles.length > 0 then
      (true, [.info ("Found environment files: " ++ String.intercalate ", " envFiles)])
    else
      (false, [])
  | none => (false, [.warning ("Error reading directory " ++ workingDir)])

/-- Model of `installVarlock()`: npm install, falling back to the curl script; only
when both fail is the run marked failed.  Never throws. -/
def installVarlock (exec : String → ExecOutcome) : List HostEffect :=
  HostEffect.info "Installing varlock..." ::
    match exec "npm install -g varlock" with
    | .success _ => []
    | .failure _ =>
      match exec "curl -fsSL https://raw.githubusercontent.com/dmno-dev/varlock/main/install.sh | sh" with
      | .success _ => []
      | .failure err => [.setFailed ("Failed to install varlock: " ++ err.message)]

/-- Number of matches of `/error/gi` on a lower-cased character list:
non-overlapping, scanned left to right (the pattern cannot self-overlap,
so this is every occurrence). -/
def countErrorAux : List Char → Nat
  | 'e' :: 'r' :: 'r' :: 'o' :: 'r' :: rest => countErrorAux rest + 1
  | _ :: rest => countErrorAux rest
  | [] => 0

/-- Model of the count `(output.match(/error/gi) || []).length`. -/
def countErrorTokens (s : String) : Nat :=
  countErrorAux (s.toList.map Char.toLower)

/-- The record returned by `runVarlockLoad`. -/
structure LoadResult where
  output : String
  errorCount : Nat
  envGraph : Option SerializedEnvGraph := none
  deriving DecidableEq, Repr

/-- Model of `runVarlockLoad(inputs)`.  Here `exec` is the subprocess world, `parse` is
`JSON.parse` specialised to the graph shape (`none` when it would throw).
Summary mode runs `varlock load` with no format flag and never populates
the graph; machine mode runs `varlock load --format json-full` and parses
stdout.  A failure whose `stdout` is falsy is rethrown, as is the
`JSON.parse` SyntaxError of a zero-exit run (its error has no `stdout`). -/
def runVarlockLoad (exec : String → ExecOutcome)
    (parse : String → Option SerializedEnvGraph) (inputs : ActionInputs) :
    Except JsError (LoadResult × List HostEffect) :=
  if inputs.showSummary then
    match exec "varlock load" with
    | .success out =>
      .ok ({ output := out, errorCount := 0 }, [.info "Running: varlock load"])
    | .failure err =>
      if stdoutTruthy err.stdout then
        let out := err.stdout.getD ""
        .ok ({ output := out, errorCount := countErrorTokens out },
          [.info "Running: varlock load"])
      else
        .error (.execError err)
  else
    match exec "varlock load --format json-full" with
    | .success out =>
      match parse out with
      | some envGraph => .ok ({ output := out, errorCount := 0, envGraph := some envGraph }, [])
      | none => .error (.parseError out)
    | .failure err =>
      if stdoutTruthy err.stdout then
        let out := err.stdout.getD ""
        let errorCount := countErrorTokens out
        match parse out with
        | some envGraph =>
          .ok ({ output := out, errorCount := errorCount, envGraph := some envGraph }, [])
        | none =>
          .ok ({ output := out, errorCount := errorCount },
            [.setFailed "Failed to parse varlock output."])
      else
        .error (.execError err)

/-- The loop of `setEnvironmentVariables`, threading the `regularVars` and
`secretVars` counters exactly as the source does; returns the effects of the
loop together with the final counters. -/
def setEnvVarsLoop : List (String × ConfigItem) → Nat → Nat →
    List HostEffect × Nat × Nat
  | [], regularVars, secretVars => ([], regularVars, secretVars)
  | (key, itemInfo) :: rest, regularVars, secretVars =>
    if isPresent itemInfo.value then
      let value := jsToString itemInfo.value
      if itemInfo.isSensitive then
        let (tr, r, s) := setEnvVarsLoop rest regularVars (secretVars + 1)
        (HostEffect.setSecret value :: HostEffect.exportVariable key value :: tr, r, s)
      else
        let (tr, r, s) := setEnvVarsLoop rest (regularVars + 1) secretVars
        (HostEffect.exportVariable key value :: tr, r, s)
    else
      setEnvVarsLoop rest regularVars secretVars

/-- Model of `setEnvironmentVariables(envGraph)`: iterates `Object.entries(config)`
in stored order; sensitive present values are registered with
`core.setSecret` and then exported, non-sensitive present values are
exported directly, absent values are skipped; finally logs the counts. -/
def setEnvironmentVariables (envGraph : SerializedEnvGraph) : List HostEffect :=
  let (tr, regularVars, secretVars) := setEnvVarsLoop envGraph.config 0 0
  tr ++ [.info ("✅ Exported " ++ toString regularVars ++
    " regular environment variables and " ++ toString secretVars ++ " secrets")]

/-- The effects that processing one config entry contributes (the clean,
per-entry reading of the loop body, proved below to decompose
`setEnvironmentVariables`). -/
def exportEntryEffects (key : String) (itemInfo : ConfigItem) : List HostEffect :=
  if isPresent itemInfo.value then
    let value := jsToString itemInfo.value
    if itemInfo.isSensitive then
      [.setSecret value, .exportVariable key value]
    else
      [.exportVariable key value]
  else
    []

/-- The lower hex digit characters. -/
def hexDigit (n : Nat) : Char :=
  if n < 10 then Char.ofNat (48 + n) else Char.ofNat (87 + n)

/-- Four-digit lower-case hex, for JSON `\uXXXX` escapes. -/
def hex4 (n : Nat) : String :=
  String.mk [hexDigit (n / 4096 % 16), hexDigit (n / 256 % 16),
    hexDigit (n / 16 % 16), hexDigit (n % 16)]

/-- JSON string escaping as performed by `JSON.stringify`. -/
def jsonEscapeChar (c : Char) : String :=
  if c = '"' then "\\\""
  else if c = '\\' then "\\\\"
  else if c = '\n' then "\\n"
  else if c = '\r' then "\\r"
  else if c = '\t' then "\\t"
  else if c.toNat = 8 then "\\b"
  else if c.toNat = 12 then "\\f"
  else if c.toNat < 32 then "\\u" ++ hex4 c.toNat
  else String.singleton c

/-- A JSON string literal for `s`. -/
def jsonQuote (s : String) : String :=
  "\"" ++ String.join (s.toList.map jsonEscapeChar) ++ "\""

/-- Serialization by `JSON.stringify` of one scalar value (entries are pre-filtered, so
`undef` never reaches serialization; `null` prints as JSON null). -/
def jsValueToJson : JsValue → String
  | .undef => "null"
  | .null => "null"
  | .bool true => "true"
  | .bool false => "false"
  | .num n => toString n
  | .str s => jsonQuote s

/-- Model of `JSON.stringify(obj, null, 2)` on a flat object of scalar
values: two-space indentation, one key per line. -/
def jsonStringifyObj (entries : List (String × JsValue)) : String :=
  match entries with
  | [] => "\x7b\x7d"
  | _ =>
    "\x7b\n" ++
      String.intercalate ",\n"
        (entries.map (fun kv => "  " ++ jsonQuote kv.1 ++ ": " ++ jsValueToJson kv.2)) ++
      "\n\x7d"

/-- The object built by the loop of `outputJsonBlob`: every entry with a
present value, mapped to its raw value (JS object keys are unique, so the
loop is exactly this filter-and-project). -/
def jsonBlobEntries (envGraph : SerializedEnvGraph) : List (String × JsValue) :=
  (envGraph.config.filter (fun kv => isPresent kv.2.value)).map
    (fun kv => (kv.1, kv.2.value))

/-- Model of `outputJsonBlob(envGraph)`: publishes the filtered mapping as the single
output `json-env`, serialized with `JSON.stringify(jsonOutput, null, 2)`. -/
def outputJsonBlob (envGraph : SerializedEnvGraph) : List HostEffect :=
  [.setOutput "json-env" (jsonStringifyObj (jsonBlobEntries envGraph)),
   .info "✅ Output JSON blob with environment variables"]

/-- The external world `run` interacts with.  `exec` takes a step index so
that installation can change what later subprocess calls observe (step 0:
first version check, 1: installation commands, 2: re-check, 3: load). -/
structure Host where
  exec : Nat → String → ExecOutcome
  readdir : String → Option (List String)
  parse : String → Option SerializedEnvGraph

/-- The tail of `run` after a successful `runVarlockLoad`: sets the
`error-count` output, optionally the summary output, dispatches on the
graph and output format, and reports validation errors per `failOnError`. -/
def runOutputsPhase (inputs : ActionInputs) (res : LoadResult) : List HostEffect :=
  [.setOutput "error-count" (toString res.errorCount)]
  ++ (if inputs.showSummary then
        [.setOutput "summary" res.output, .info "📋 Environment Summary:", .info res.output]
      else [])
  ++ (match res.envGraph with
      | some envGraph =>
        if inputs.outputFormat = "env" then
          HostEffect.info "🔧 Setting environment variables..." :: setEnvironmentVariables envGraph
        else if inputs.outputFormat = "json" then
          HostEffect.info "📄 Outputting JSON blob..." :: outputJsonBlob envGraph
        else []
      | none =>
        HostEffect.warning "Could not parse varlock output as json-full" ::
          (if inputs.outputFormat = "json" then
            [.setFailed "JSON output format requires valid varlock json-full output"]
          else []))
  ++ (if res.errorCount > 0 then
        (if inputs.failOnError then
          [.setFailed ("Found " ++ toString res.errorCount ++ " validation error(s)")]
        else
          [.warning ("Found " ++ toString res.errorCount ++ " validation error(s)")])
      else [])
  ++ [.info "✅ Environment variables loaded successfully"]

/-- The part of `run` from the load call on; a thrown load error is caught
by the surrounding try and reported via `core.setFailed`. -/
def runLoadPhase (inputs : ActionInputs) (exec : String → ExecOutcome)
    (parse : String → Option SerializedEnvGraph) : List HostEffect :=
  HostEffect.info "🚀 Loading environment variables with varlock..." ::
    match runVarlockLoad exec parse inputs with
    | .error err => [.setFailed ("Action failed: " ++ err.message)]
    | .ok (res, loadEffects) => loadEffects ++ runOutputsPhase inputs res

/-- The part of `run` once varlock is known to be available: checks for
environment files, failing the run when none exist, and otherwise loads. -/
def runWithVarlock (host : Host) (inputs : ActionInputs) : List HostEffect :=
  [HostEffect.info "✅ Varlock is available",
   HostEffect.info "🔍 Checking for environment files..."]
  ++ (let check := checkForEnvFiles host.readdir inputs.workingDirectory
      check.2 ++
        (if check.1 then
          HostEffect.info "✅ Environment files found" ::
            runLoadPhase inputs (host.exec 3) host.parse
        else
          [.warning "No .env files detected",
           .info "This action requires environment files (e.g., .env, .env.local, .env.production)",
           .setFailed "No environment files found"]))

/-- Model of `run()`: the whole action, as the trace of host-platform calls it
makes.  Mirrors the source control flow including the install fallback and
the two early returns. -/
def run (host : Host) (getInput : String → String) : List HostEffect :=
  let inputs := getInputs getInput
  HostEffect.info "🔍 Checking for varlock installation..." ::
    (if checkVarlockInstalled (host.exec 0) then
      runWithVarlock host inputs
    else
      HostEffect.info "📦 Varlock not found, installing..." ::
        (installVarlock (host.exec 1) ++
          (if checkVarlockInstalled (host.exec 2) then
            runWithVarlock host inputs
          else
            [.setFailed "Failed to install varlock"])))

/-- The `exportVariable` calls of a trace, in order. -/
def exportedPairs (effects : List HostEffect) : List (String × String) :=
  effects.filterMap (fun e =>
    match e with
    | .exportVariable k v => some (k, v)
    | _ => none)

/-- Whether a trace marks the run failed. -/
def hasFailure (effects : List HostEffect) : Bool :=
  effects.any (fun e =>
    match e with
    | .setFailed _ => true
    | _ => false)

/-- Whether a trace logs a warning. -/
def hasWarning (effects : List HostEffect) : Bool :=
  effects.any (fun e =>
    match e with
    | .warning _ => true
    | _ => false)

/-- The process environment after replaying the `exportVariable` calls of a
trace over an initial environment (last write per key wins). -/
def envAfter : List HostEffect → (String → Option String) → String → Option String
  | [], env => env
  | .exportVariable k v :: rest, env =>
    envAfter rest (fun q => if q = k then some v else env q)
  | _ :: rest, env => envAfter rest env

/-- The action outputs after replaying the `setOutput` calls of a trace. -/
def outputsAfter : List HostEffect → (String → Option String) → String → Option String
  | [], outs => outs
  | .setOutput n v :: rest, outs =>
    outputsAfter rest (fun q => if q = n then some v else outs q)
  | _ :: rest, outs => outputsAfter rest outs

/-- The last `exportVariable` value a trace assigns to key `q`, if any. -/
def lastExport : List HostEffect → String → Option String
  | [], _ => none
  | .exportVariable k v :: rest, q =>
    match lastExport rest q with
    | some w => some w
    | none => if q = k then some v else none
  | _ :: rest, q => lastExport rest q

/-- The last `setOutput` value a trace assigns to name `q`, if any. -/
def lastOutput : List HostEffect → String → Option String
  | [], _ => none
  | .setOutput n v :: rest, q =>
    match lastOutput rest q with
    | some w => some w
    | none => if q = n then some v else none
  | _ :: rest, q => lastOutput rest q

/-- C4: Environment-file detection returns true for every directory listing
containing `.env` or any name starting with `.env.`; an empty listing gives
false; an unreadable directory gives false (with a warning, not an error). -/
theorem checkForEnvFiles_claim (readdir : String → Option (List String)) (dir : String) :
    (∀ files, readdir dir = some files →
      (∃ f ∈ files, f = ".env" ∨ strStartsWith f ".env.") →
        (checkForEnvFiles readdir dir).fst = true)
    ∧ (readdir dir = some [] → (checkForEnvFiles readdir dir).fst = false)
    ∧ (readdir dir = none → (checkForEnvFiles readdir dir).fst = false) := by
  refine ⟨?_, ?_, ?_⟩
  · intro files hread ⟨f, hf, hprop⟩
    unfold checkForEnvFiles
    rw [hread]
    simp only
    have hmem : f ∈ files.filter (fun file => file = ".env" || strStartsWith file ".env.") := by
      simp only [List.mem_filter]
      refine ⟨hf, ?_⟩
      rcases hprop with h | h
      · simp [h]
      · simp [h]
    have hlen : 0 < (files.filter (fun file => file = ".env" || strStartsWith file ".env.")).length :=
      List.length_pos.mpr (List.ne_nil_of_mem hmem)
    simp [hlen]
  · intro hread
    unfold checkForEnvFiles
    rw [hread]
    simp
  · intro hread
    unfold checkForEnvFiles
    rw [hread]

/-- Witness for C4 at concrete directory listings. -/
theorem checkForEnvFiles_claim_witness :
    (checkForEnvFiles (fun _ => some ["README.md", ".env.production"]) ".").fst = true
    ∧ (checkForEnvFiles (fun _ => some []) ".").fst = false
    ∧ (checkForEnvFiles (fun _ => none) ".").fst = false := by
  refine ⟨?_, ?_, ?_⟩
  · exact (checkForEnvFiles_claim (fun _ => some ["README.md", ".env.production"]) ".").1
      ["README.md", ".env.production"] rfl
      ⟨".env.production", by decide, Or.inr (by decide)⟩
  · exact (checkForEnvFiles_claim (fun _ => some []) ".").2.1 rfl
  · exact (checkForEnvFiles_claim (fun _ => none) ".").2.2 rfl

/-! ### Helper lemmas about `runVarlockLoad` -/

/-- In summary mode a returned result never carries a graph. -/
theorem summary_graph_none (exec : String → ExecOutcome)
    (parse : String → Option SerializedEnvGraph) (inputs : ActionInputs)
    (h : inputs.showSummary = true) (res : LoadResult) (effects : List HostEffect)
    (hok : runVarlockLoad exec parse inputs = .ok (res, effects)) :
    res.envGraph = none := by
  unfold runVarlockLoad at hok
  split at hok
  · split at hok
    · cases hok; rfl
    · split at hok
      · cases hok; rfl
      · exact Except.noConfusion hok
  · rename_i hfalse
    exact absurd h hfalse

/-- The effect list of any non-throwing `runVarlockLoad` call is one of
three constants. -/
theorem runVarlockLoad_effects_cases (exec : String → ExecOutcome)
    (parse : String → Option SerializedEnvGraph) (inputs : ActionInputs)
    (res : LoadResult) (effects : List HostEffect)
    (hok : runVarlockLoad exec parse inputs = .ok (res, effects)) :
    effects = [] ∨ effects = [.info "Running: varlock load"]
      ∨ effects = [.setFailed "Failed to parse varlock output."] := by
  unfold runVarlockLoad at hok
  split at hok
  · split at hok
    · cases hok; right; left; rfl
    · split at hok
      · cases hok; right; left; rfl
      · exact Except.noConfusion hok
  · split at hok
    · split at hok
      · cases hok; left; rfl
      · exact Except.noConfusion hok
    · split at hok
      · dsimp only at hok
        split at hok
        · cases hok; left; rfl
        · cases hok; right; right; rfl
      · exact Except.noConfusion hok

/-! ### C7: summary mode -/

/-- C7: In summary mode, `runVarlockLoad` returns `errorCount = 0` on zero
exit; on non-zero exit with captured (non-empty) stdout it returns that
stdout with `errorCount` the number of case-insensitive occurrences of
"error" in it; and no returned result ever carries a Result Graph. -/
theorem runVarlockLoad_summary_claim (exec : String → ExecOutcome)
    (parse : String → Option SerializedEnvGraph) (inputs : ActionInputs)
    (h : inputs.showSummary = true) :
    (∀ out, exec "varlock load" = .success out →
      runVarlockLoad exec parse inputs =
        .ok ({ output := out, errorCount := 0 }, [.info "Running: varlock load"]))
    ∧ (∀ err s, exec "varlock load" = .failure err → err.stdout = some s → s ≠ "" →
      runVarlockLoad exec parse inputs =
        .ok ({ output := s, errorCount := countErrorTokens s },
          [.info "Running: varlock load"]))
    ∧ (∀ res effects, runVarlockLoad exec parse inputs = .ok (res, effects) →
      res.envGraph = none) := by
  refine ⟨?_, ?_, fun res effects hok => summary_graph_none exec parse inputs h res effects hok⟩
  · intro out hexec
    unfold runVarlockLoad
    rw [hexec] at *
    simp [h]
  · intro err s hexec hstdout hne
    unfold runVarlockLoad
    rw [hexec]
    simp [h, hstdout, stdoutTruthy, hne]

/-- Witness for C7: a zero-exit summary run and a failing one with output
`"Error: missing DB_URL\nerror: ..."` (two case-insensitive matches). -/
theorem runVarlockLoad_summary_claim_witness :
    runVarlockLoad (fun _ => .success "all good") (fun _ => none)
      { workingDirectory := ".", showSummary := true, failOnError := false, outputFormat := "env" } =
      .ok ({ output := "all good", errorCount := 0 }, [.info "Running: varlock load"])
    ∧ runVarlockLoad
        (fun _ => .failure { stdout := some "Error: missing DB_URL, error in schema", message := "exit 1" })
        (fun _ => none)
        { workingDirectory := ".", showSummary := true, failOnError := false, outputFormat := "env" } =
      .ok ({ output := "Error: missing DB_URL, error in schema", errorCount := 2 },
        [.info "Running: varlock load"]) := by
  constructor
  · exact (runVarlockLoad_summary_claim _ _ _ rfl).1 "all good" rfl
  · exact (runVarlockLoad_summary_claim _ _ _ rfl).2.1
      { stdout := some "Error: missing DB_URL, error in schema", message := "exit 1" }
      "Error: missing DB_URL, error in schema" rfl rfl (by decide)

/-! ### C6: hard subprocess fault -/

/-- C6: In either mode, a subprocess failure that captured no stdout is
rethrown to the caller instead of being turned into a result. -/
theorem runVarlockLoad_hardFault_claim (exec : String → ExecOutcome)
    (parse : String → Option SerializedEnvGraph) (inputs : ActionInputs)
    (err : ExecFailure) (hstdout : err.stdout = none) :
    (inputs.showSummary = true → exec "varlock load" = .failure err →
      runVarlockLoad exec parse inputs = .error (.execError err))
    ∧ (inputs.showSummary = false → exec "varlock load --format json-full" = .failure err →
      runVarlockLoad exec parse inputs = .error (.execError err)) := by
  constructor
  · intro h hexec
    unfold runVarlockLoad
    rw [hexec]
    simp [h, hstdout, stdoutTruthy]
  · intro h hexec
    unfold runVarlockLoad
    rw [hexec]
    simp [h, hstdout, stdoutTruthy]

/-- Witness for C6: a missing binary (no stdout) in machine mode. -/
theorem runVarlockLoad_hardFault_claim_witness :
    runVarlockLoad (fun _ => .failure { message := "spawn varlock ENOENT" }) (fun _ => none)
      { workingDirectory := ".", showSummary := false, failOnError := false, outputFormat := "env" } =
      .error (.execError { message := "spawn varlock ENOENT" }) := by
  exact (runVarlockLoad_hardFault_claim _ _ _ _ rfl).2 rfl rfl

/-! ### C1: machine mode, failure stdout that does not parse -/

/-- Machine-mode inputs (`show-summary` false, `env` output). -/
def machineInputs : ActionInputs :=
  { workingDirectory := ".", showSummary := false, failOnError := false, outputFormat := "env" }

/-- A failing subprocess whose captured stdout is the plain text `oops`. -/
def execUnparseable : String → ExecOutcome :=
  fun _ => .failure { stdout := some "oops", message := "Command failed: varlock load --format json-full" }

/-- Behaviour of `JSON.parse` on inputs where it throws (the text `oops` is not JSON). -/
def parseNever : String → Option SerializedEnvGraph :=
  fun _ => none

/-- C1 counterexample: with failure stdout `oops` (not valid JSON), the
routine does return the raw text with no Result Graph and does not throw,
but it surfaces `core.setFailed` — a fatal failure marker — and no warning,
so "surfaces only a warning, not a ... fatal failure" is false here. -/
theorem runVarlockLoad_unparseable_cex :
    runVarlockLoad execUnparseable parseNever machineInputs =
      .ok ({ output := "oops", errorCount := 0 },
        [.setFailed "Failed to parse varlock output."])
    ∧ hasFailure [HostEffect.setFailed "Failed to parse varlock output."] = true
    ∧ hasWarning [HostEffect.setFailed "Failed to parse varlock output."] = false := by
  refine ⟨rfl, rfl, rfl⟩

/-- C1 amended: in machine mode, when the subprocess fails with captured
(non-empty) stdout that does not parse, `runVarlockLoad` returns the raw
text with no Result Graph and does not throw, but it marks the run failed
via `core.setFailed` (the caller separately logs the warning). -/
theorem runVarlockLoad_unparseable_amended (exec : String → ExecOutcome)
    (parse : String → Option SerializedEnvGraph) (inputs : ActionInputs)
    (err : ExecFailure) (s : String)
    (hsum : inputs.showSummary = false)
    (hexec : exec "varlock load --format json-full" = .failure err)
    (hstdout : err.stdout = some s) (hne : s ≠ "")
    (hparse : parse s = none) :
    runVarlockLoad exec parse inputs =
      .ok ({ output := s, errorCount := countErrorTokens s },
        [.setFailed "Failed to parse varlock output."]) := by
  unfold runVarlockLoad
  rw [hexec]
  simp [hsum, hstdout, stdoutTruthy, hne, hparse]

/-- Witness for the amended C1 at the counterexample input. -/
theorem runVarlockLoad_unparseable_amended_witness :
    runVarlockLoad execUnparseable parseNever machineInputs =
      .ok ({ output := "oops", errorCount := 0 },
        [.setFailed "Failed to parse varlock output."]) := by
  exact runVarlockLoad_unparseable_amended execUnparseable parseNever machineInputs
    { stdout := some "oops", message := "Command failed: varlock load --format json-full" }
    "oops" rfl rfl rfl (by decide) rfl

/-! ### C2: machine mode, failure stdout that parses -/

/-- The empty Result Graph. -/
def emptyGraph : SerializedEnvGraph := {}

/-- Its JSON serialization — valid structured output containing no
occurrence of the token "error". -/
def emptyGraphJson : String :=
  "\x7b\"sources\":[],\"settings\":\x7b\x7d,\"config\":\x7b\x7d\x7d"

/-- A failing subprocess whose stdout is that valid JSON text. -/
def execValidNoErrorToken : String → ExecOutcome :=
  fun _ => .failure { stdout := some emptyGraphJson, message := "Command failed: varlock load --format json-full" }

/-- Behaviour of `JSON.parse` restricted to the strings it is applied to here: it
succeeds exactly on `emptyGraphJson`, yielding the empty graph. -/
def parseEmptyGraph : String → Option SerializedEnvGraph :=
  fun s => if s = emptyGraphJson then some emptyGraph else none

/-- C2 counterexample: the validator exits non-zero with valid structured
stdout, yet `errorCount = 0`, refuting "errorCount of at least 1" (the
count is the "error"-token heuristic, and this stdout contains none). -/
theorem runVarlockLoad_parsedNoErrorToken_cex :
    runVarlockLoad execValidNoErrorToken parseEmptyGraph machineInputs =
      .ok ({ output := emptyGraphJson, errorCount := 0, envGraph := some emptyGraph }, [])
    ∧ ¬(1 ≤ (0 : Nat)) := by
  refine ⟨rfl, by decide⟩

/-- C2 amended: a machine-mode invocation that exits non-zero with
(non-empty) stdout that parses as a Result Graph yields that non-null
graph, and `errorCount` equal to the case-insensitive count of the token
"error" in the stdout — which may be 0, not necessarily at least 1. -/
theorem runVarlockLoad_parsedFailure_amended (exec : String → ExecOutcome)
    (parse : String → Option SerializedEnvGraph) (inputs : ActionInputs)
    (err : ExecFailure) (s : String) (envGraph : SerializedEnvGraph)
    (hsum : inputs.showSummary = false)
    (hexec : exec "varlock load --format json-full" = .failure err)
    (hstdout : err.stdout = some s) (hne : s ≠ "")
    (hparse : parse s = some envGraph) :
    runVarlockLoad exec parse inputs =
      .ok ({ output := s, errorCount := countErrorTokens s, envGraph := some envGraph }, []) := by
  unfold runVarlockLoad
  rw [hexec]
  simp [hsum, hstdout, stdoutTruthy, hne, hparse]

/-- A graph whose serialization does contain the token (as `ERROR`). -/
def errTokenGraph : SerializedEnvGraph :=
  { config := [("DB_ERROR_MSG", { value := .null, isSensitive := false })] }

/-- Its JSON serialization, containing one case-insensitive match. -/
def errTokenGraphJson : String :=
  "\x7b\"sources\":[],\"settings\":\x7b\x7d,\"config\":\x7b\"DB_ERROR_MSG\":\x7b\"value\":null,\"isSensitive\":false\x7d\x7d\x7d"

/-- Behaviour of `JSON.parse` restricted to the strings it meets here. -/
def parseErrTokenGraph : String → Option SerializedEnvGraph :=
  fun s => if s = errTokenGraphJson then some errTokenGraph else none

/-- Witness for the amended C2: non-zero exit, parseable stdout with one
"error" match, graph returned and count 1. -/
theorem runVarlockLoad_parsedFailure_amended_witness :
    runVarlockLoad
      (fun _ => .failure { stdout := some errTokenGraphJson, message := "Command failed" })
      parseErrTokenGraph machineInputs =
      .ok ({ output := errTokenGraphJson, errorCount := 1, envGraph := some errTokenGraph }, []) := by
  exact runVarlockLoad_parsedFailure_amended _ parseErrTokenGraph machineInputs
    { stdout := some errTokenGraphJson, message := "Command failed" }
    errTokenGraphJson errTokenGraph rfl rfl rfl (by decide) rfl

/-! ### C3: environment/secret export ordering -/

/-- The loop effects decompose entrywise, independently of the counters. -/
theorem setEnvVarsLoop_fst (entries : List (String × ConfigItem)) :
    ∀ r s, (setEnvVarsLoop entries r s).1 =
      (entries.map (fun kv => exportEntryEffects kv.1 kv.2)).flatten := by
  induction entries with
  | nil => intro r s; rfl
  | cons kv rest ih =>
    intro r s
    obtain ⟨key, itemInfo⟩ := kv
    by_cases hp : isPresent itemInfo.value
    · by_cases hs : itemInfo.isSensitive
      · rcases htr : setEnvVarsLoop rest r (s + 1) with ⟨tr, r', s'⟩
        have htr1 : tr = (rest.map (fun kv => exportEntryEffects kv.1 kv.2)).flatten := by
          have := ih r (s + 1)
          rw [htr] at this
          exact this
        simp [setEnvVarsLoop, exportEntryEffects, hp, hs, htr, htr1]
      · rcases htr : setEnvVarsLoop rest (r + 1) s with ⟨tr, r', s'⟩
        have htr1 : tr = (rest.map (fun kv => exportEntryEffects kv.1 kv.2)).flatten := by
          have := ih (r + 1) s
          rw [htr] at this
          exact this
        simp [setEnvVarsLoop, exportEntryEffects, hp, hs, htr, htr1]
    · simp [setEnvVarsLoop, exportEntryEffects, hp, ih r s]

/-- Decomposition: `setEnvironmentVariables` is the entrywise effects in stored order,
followed by one `info` log. -/
theorem setEnvironmentVariables_decompose (envGraph : SerializedEnvGraph) :
    ∃ msg, setEnvironmentVariables envGraph =
      (envGraph.config.map (fun kv => exportEntryEffects kv.1 kv.2)).flatten
        ++ [.info msg] := by
  unfold setEnvironmentVariables
  rcases htr : setEnvVarsLoop envGraph.config 0 0 with ⟨tr, r', s'⟩
  refine ⟨"✅ Exported " ++ toString r' ++
    " regular environment variables and " ++ toString s' ++ " secrets", ?_⟩
  have htr1 := setEnvVarsLoop_fst envGraph.config 0 0
  rw [htr] at htr1
  simp only at htr1 ⊢
  rw [htr1]

/-- C3: the export trace is the concatenation, in stored config order, of
one block per entry; the block of a sensitive present entry registers the value
for masking and then exports it; the block of a non-sensitive present entry is
the export alone (no masking registration); the block of an absent entry is
empty (never exported). -/
theorem setEnvironmentVariables_claim (envGraph : SerializedEnvGraph) :
    (∃ msg, setEnvironmentVariables envGraph =
      (envGraph.config.map (fun kv => exportEntryEffects kv.1 kv.2)).flatten
        ++ [.info msg])
    ∧ (∀ key itemInfo, isPresent itemInfo.value = true → itemInfo.isSensitive = true →
        exportEntryEffects key itemInfo =
          [.setSecret (jsToString itemInfo.value),
           .exportVariable key (jsToString itemInfo.value)])
    ∧ (∀ key itemInfo, isPresent itemInfo.value = true → itemInfo.isSensitive = false →
        exportEntryEffects key itemInfo =
          [.exportVariable key (jsToString itemInfo.value)])
    ∧ (∀ key itemInfo, isPresent itemInfo.value = false →
        exportEntryEffects key itemInfo = []) := by
  refine ⟨setEnvironmentVariables_decompose envGraph, ?_, ?_, ?_⟩
  · intro key itemInfo hp hs
    simp [exportEntryEffects, hp, hs]
  · intro key itemInfo hp hs
    simp [exportEntryEffects, hp, hs]
  · intro key itemInfo hp
    simp [exportEntryEffects, hp]

/-- A graph with one sensitive present, one regular present and one absent
entry, for the C3 witness. -/
def gSensitive : SerializedEnvGraph :=
  { config := [
      ("API_KEY", { value := .str "sk-1234", isSensitive := true }),
      ("PORT", { value := .num 3000, isSensitive := false }),
      ("UNSET", { value := .null, isSensitive := true })] }

/-- Witness for C3: on `gSensitive` the trace is masking-then-export for
`API_KEY`, a bare export for `PORT`, nothing for `UNSET`, then the log. -/
theorem setEnvironmentVariables_claim_witness :
    ∃ msg, setEnvironmentVariables gSensitive =
      [HostEffect.setSecret "sk-1234",
       HostEffect.exportVariable "API_KEY" "sk-1234",
       HostEffect.exportVariable "PORT" "3000",
       HostEffect.info msg] := by
  obtain ⟨⟨msg, hmsg⟩, hsens, hreg, habs⟩ := setEnvironmentVariables_claim gSensitive
  refine ⟨msg, ?_⟩
  rw [hmsg,
    show gSensitive.config = [
      ("API_KEY", { value := .str "sk-1234", isSensitive := true }),
      ("PORT", { value := .num 3000, isSensitive := false }),
      ("UNSET", { value := .null, isSensitive := true })] from rfl]
  rw [List.map_cons, List.map_cons, List.map_cons, List.map_nil]
  rw [hsens "API_KEY" { value := .str "sk-1234", isSensitive := true } rfl rfl,
    hreg "PORT" { value := .num 3000, isSensitive := false } rfl rfl,
    habs "UNSET" { value := .null, isSensitive := true } rfl]
  rfl

/-! ### C5: JSON blob export -/

/-- C5: the blob maps exactly the present-valued keys to their raw values
(no sensitivity flags appear in the entries), and the routine publishes it
as the single output `json-env`, serialized as formatted JSON. -/
theorem outputJsonBlob_claim (envGraph : SerializedEnvGraph) :
    outputJsonBlob envGraph =
      [.setOutput "json-env" (jsonStringifyObj (jsonBlobEntries envGraph)),
       .info "✅ Output JSON blob with environment variables"]
    ∧ (∀ key v, (key, v) ∈ jsonBlobEntries envGraph ↔
        ∃ itemInfo, (key, itemInfo) ∈ envGraph.config
          ∧ isPresent itemInfo.value = true ∧ v = itemInfo.value) := by
  constructor
  · rfl
  · intro key v
    simp only [jsonBlobEntries, List.mem_map, List.mem_filter]
    constructor
    · rintro ⟨⟨k', itemInfo⟩, ⟨hmem, hpres⟩, heq⟩
      obtain ⟨rfl, rfl⟩ := Prod.mk.injEq .. ▸ heq
      exact ⟨itemInfo, hmem, hpres, rfl⟩
    · rintro ⟨itemInfo, hmem, hpres, rfl⟩
      exact ⟨(key, itemInfo), ⟨hmem, hpres⟩, rfl⟩

/-- The example graph of the spec: `X: 1`, `Y: null`, `Z: "s"`. -/
def gBlob : SerializedEnvGraph :=
  { config := [
      ("X", { value := .num 1, isSensitive := false }),
      ("Y", { value := .null, isSensitive := true }),
      ("Z", { value := .str "s", isSensitive := false })] }

/-- Witness for C5 on the example of the spec: the published blob is exactly the
formatted JSON of `X` and `Z`; `Y` is omitted. -/
theorem outputJsonBlob_claim_witness :
    outputJsonBlob gBlob =
      [.setOutput "json-env" "\x7b\n  \"X\": 1,\n  \"Z\": \"s\"\n\x7d",
       .info "✅ Output JSON blob with environment variables"]
    ∧ ("X", JsValue.num 1) ∈ jsonBlobEntries gBlob
    ∧ (∀ v, ("Y", v) ∉ jsonBlobEntries gBlob) := by
  have h := outputJsonBlob_claim gBlob
  refine ⟨?_, ?_, ?_⟩
  · rw [h.1]
    rfl
  · exact (h.2 "X" (.num 1)).mpr
      ⟨{ value := .num 1, isSensitive := false }, by simp [gBlob], rfl, rfl⟩
  · intro v hv
    obtain ⟨itemInfo, hmem, hpres, rfl⟩ := (h.2 "Y" v).mp hv
    simp only [gBlob, List.mem_cons, List.mem_singleton, Prod.mk.injEq] at hmem
    rcases hmem with ⟨hk, rfl⟩ | ⟨⟨hk, rfl⟩ | ⟨hk, rfl⟩ | h0⟩
    · exact absurd hk (by decide)
    · exact absurd hpres (by decide)
    · exact absurd hk (by decide)
    · exact absurd h0 (List.not_mem_nil _)

/-! ### C10: falsy but present values -/

/-- C10: only `undefined` and `null` count as absent; any other value — in
particular `""`, `false` and `0` — is present and gets exported, stringified
in environment mode and raw in blob mode. -/
theorem export_falsy_claim (envGraph : SerializedEnvGraph)
    (key : String) (itemInfo : ConfigItem) :
    (isPresent itemInfo.value = true ↔
      (itemInfo.value ≠ .undef ∧ itemInfo.value ≠ .null))
    ∧ (jsToString (.str "") = "" ∧ jsToString (.bool false) = "false"
        ∧ jsToString (.num 0) = "0")
    ∧ ((key, itemInfo) ∈ envGraph.config → isPresent itemInfo.value = true →
        HostEffect.exportVariable key (jsToString itemInfo.value) ∈
          setEnvironmentVariables envGraph
        ∧ (key, itemInfo.value) ∈ jsonBlobEntries envGraph) := by
  refine ⟨?_, ⟨rfl, rfl, rfl⟩, ?_⟩
  · simp [isPresent]
  · intro hmem hpres
    constructor
    · obtain ⟨msg, hdec⟩ := setEnvironmentVariables_decompose envGraph
      rw [hdec]
      apply List.mem_append_left
      rw [List.mem_flatten]
      refine ⟨exportEntryEffects key itemInfo,
        List.mem_map_of_mem (fun kv => exportEntryEffects kv.1 kv.2) hmem, ?_⟩
      by_cases hs : itemInfo.isSensitive
      · simp [exportEntryEffects, hpres, hs]
      · simp [exportEntryEffects, hpres, hs]
    · rw [jsonBlobEntries, List.mem_map]
      exact ⟨(key, itemInfo), List.mem_filter.mpr ⟨hmem, hpres⟩, rfl⟩

/-- A graph with the three falsy-but-present values. -/
def gFalsy : SerializedEnvGraph :=
  { config := [
      ("EMPTY", { value := .str "", isSensitive := false }),
      ("FLAG", { value := .bool false, isSensitive := false }),
      ("ZERO", { value := .num 0, isSensitive := true })] }

/-- Witness for C10: `""`, `false` and `0` are all exported (stringified),
and `0` stays a raw value in the blob entries. -/
theorem export_falsy_claim_witness :
    HostEffect.exportVariable "EMPTY" "" ∈ setEnvironmentVariables gFalsy
    ∧ HostEffect.exportVariable "FLAG" "false" ∈ setEnvironmentVariables gFalsy
    ∧ HostEffect.exportVariable "ZERO" "0" ∈ setEnvironmentVariables gFalsy
    ∧ ("ZERO", JsValue.num 0) ∈ jsonBlobEntries gFalsy := by
  refine ⟨?_, ?_, ?_, ?_⟩
  · exact ((export_falsy_claim gFalsy "EMPTY"
      { value := .str "", isSensitive := false }).2.2 (by simp [gFalsy]) rfl).1
  · exact ((export_falsy_claim gFalsy "FLAG"
      { value := .bool false, isSensitive := false }).2.2 (by simp [gFalsy]) rfl).1
  · exact ((export_falsy_claim gFalsy "ZERO"
      { value := .num 0, isSensitive := true }).2.2 (by simp [gFalsy]) rfl).1
  · exact ((export_falsy_claim gFalsy "ZERO"
      { value := .num 0, isSensitive := true }).2.2 (by simp [gFalsy]) rfl).2

/-! ### C8: idempotence of the export routines -/

/-- Replaying effects distributes over concatenation. -/
theorem envAfter_append (a b : List HostEffect) :
    ∀ env, envAfter (a ++ b) env = envAfter b (envAfter a env) := by
  induction a with
  | nil => intro env; rfl
  | cons e rest ih =>
    intro env
    cases e <;> simp [envAfter, ih]

/-- The environment after a trace: the last export per key, over the base. -/
theorem envAfter_lastExport (effects : List HostEffect) :
    ∀ env q, envAfter effects env q =
      match lastExport effects q with
      | some v => some v
      | none => env q := by
  induction effects with
  | nil => intro env q; rfl
  | cons e rest ih =>
    intro env q
    cases e with
    | exportVariable k v =>
      simp only [envAfter, lastExport]
      rw [ih]
      cases h : lastExport rest q with
      | some w => rfl
      | none => by_cases hq : q = k <;> simp [hq]
    | info m => simp [envAfter, lastExport, ih]
    | warning m => simp [envAfter, lastExport, ih]
    | setFailed m => simp [envAfter, lastExport, ih]
    | setSecret v => simp [envAfter, lastExport, ih]
    | setOutput n v => simp [envAfter, lastExport, ih]

/-- Replaying a trace over its own result changes nothing. -/
theorem envAfter_idem (effects : List HostEffect) (env : String → Option String)
    (q : String) :
    envAfter effects (envAfter effects env) q = envAfter effects env q := by
  rw [envAfter_lastExport effects (envAfter effects env) q]
  cases h : lastExport effects q with
  | some v => rw [envAfter_lastExport effects env q, h]
  | none => rfl

/-- A per-entry block never marks the run failed. -/
theorem not_setFailed_exportEntryEffects (key : String) (itemInfo : ConfigItem)
    (m : String) : HostEffect.setFailed m ∉ exportEntryEffects key itemInfo := by
  unfold exportEntryEffects
  by_cases hp : isPresent itemInfo.value <;> by_cases hs : itemInfo.isSensitive <;>
    simp [hp, hs]

/-- The environment/secret export never marks the run failed. -/
theorem hasFailure_setEnvironmentVariables (envGraph : SerializedEnvGraph) :
    hasFailure (setEnvironmentVariables envGraph) = false := by
  obtain ⟨msg, hdec⟩ := setEnvironmentVariables_decompose envGraph
  rw [hdec]
  unfold hasFailure
  rw [List.any_append, Bool.or_eq_false_iff]
  constructor
  · rw [List.any_eq_false]
    intro e he
    obtain ⟨l, hl, hel⟩ := List.mem_flatten.mp he
    obtain ⟨kv, _, rfl⟩ := List.mem_map.mp hl
    cases e <;> simp
    case setFailed m =>
      exact absurd hel (not_setFailed_exportEntryEffects kv.1 kv.2 m)
  · rfl

/-- C8: replaying either export routine a second time on the same graph
leaves the exported environment, the set of exported pairs and the outputs
unchanged, and neither call ever marks the run failed. -/
theorem export_idempotent_claim (envGraph : SerializedEnvGraph)
    (env0 outs0 : String → Option String) :
    (∀ key, envAfter (setEnvironmentVariables envGraph ++ setEnvironmentVariables envGraph) env0 key
      = envAfter (setEnvironmentVariables envGraph) env0 key)
    ∧ (exportedPairs (setEnvironmentVariables envGraph ++ setEnvironmentVariables envGraph)).toFinset
      = (exportedPairs (setEnvironmentVariables envGraph)).toFinset
    ∧ hasFailure (setEnvironmentVariables envGraph ++ setEnvironmentVariables envGraph) = false
    ∧ (∀ name, outputsAfter (outputJsonBlob envGraph ++ outputJsonBlob envGraph) outs0 name
      = outputsAfter (outputJsonBlob envGraph) outs0 name)
    ∧ exportedPairs (outputJsonBlob envGraph ++ outputJsonBlob envGraph)
      = exportedPairs (outputJsonBlob envGraph)
    ∧ hasFailure (outputJsonBlob envGraph ++ outputJsonBlob envGraph) = false := by
  refine ⟨?_, ?_, ?_, ?_, ?_, ?_⟩
  · intro key
    rw [envAfter_append]
    exact envAfter_idem (setEnvironmentVariables envGraph) env0 key
  · unfold exportedPairs
    rw [List.filterMap_append, List.toFinset_append, Finset.union_self]
  · unfold hasFailure
    rw [List.any_append]
    have h := hasFailure_setEnvironmentVariables envGraph
    unfold hasFailure at h
    rw [h]
    rfl
  · intro name
    by_cases h : name = "json-env" <;>
      simp [outputJsonBlob, outputsAfter, h]
  · rfl
  · rfl

/-! ### C9: summary mode at the orchestration level -/

/-- Effects that put a value into the environment or the masking list. -/
def isExportEffect : HostEffect → Bool
  | .exportVariable _ _ => true
  | .setSecret _ => true
  | _ => false

/-- Directory detection emits no export or masking effect. -/
theorem noexp_checkForEnvFiles (readdir : String → Option (List String))
    (dir : String) :
    ((checkForEnvFiles readdir dir).2).any isExportEffect = false := by
  unfold checkForEnvFiles
  cases h : readdir dir with
  | some files =>
    dsimp only
    split <;> rfl
  | none => rfl

/-- Installation emits no export or masking effect. -/
theorem noexp_installVarlock (exec : String → ExecOutcome) :
    (installVarlock exec).any isExportEffect = false := by
  unfold installVarlock
  cases h : exec "npm install -g varlock" with
  | success s => rfl
  | failure e =>
    cases h2 : exec "curl -fsSL https://raw.githubusercontent.com/dmno-dev/varlock/main/install.sh | sh" with
    | success s => rfl
    | failure e2 => rfl

/-- With no graph in the load result, the output phase emits no export or
masking effect. -/
theorem noexp_runOutputsPhase (inputs : ActionInputs) (res : LoadResult)
    (hg : res.envGraph = none) :
    (runOutputsPhase inputs res).any isExportEffect = false := by
  unfold runOutputsPhase
  rw [hg]
  by_cases hs : inputs.showSummary <;>
    by_cases hj : inputs.outputFormat = "json" <;>
      by_cases he : res.errorCount > 0 <;>
        by_cases hf : inputs.failOnError <;>
          simp [hs, hj, he, hf, isExportEffect]

/-- In summary mode the whole load phase emits no export or masking
effect. -/
theorem noexp_runLoadPhase (inputs : ActionInputs) (exec : String → ExecOutcome)
    (parse : String → Option SerializedEnvGraph)
    (hsum : inputs.showSummary = true) :
    (runLoadPhase inputs exec parse).any isExportEffect = false := by
  unfold runLoadPhase
  cases hr : runVarlockLoad exec parse inputs with
  | error err => rfl
  | ok p =>
    obtain ⟨res, effects⟩ := p
    have hg := summary_graph_none exec parse inputs hsum res effects hr
    have heff := runVarlockLoad_effects_cases exec parse inputs res effects hr
    have houts := noexp_runOutputsPhase inputs res hg
    rcases heff with rfl | rfl | rfl <;>
      simp [List.any_append, isExportEffect, houts]

/-- In summary mode the whole post-installation part emits no export or
masking effect. -/
theorem noexp_runWithVarlock (host : Host) (inputs : ActionInputs)
    (hsum : inputs.showSummary = true) :
    (runWithVarlock host inputs).any isExportEffect = false := by
  unfold runWithVarlock
  rcases hc : checkForEnvFiles host.readdir inputs.workingDirectory with ⟨hasEnv, envEff⟩
  have h2 : envEff.any isExportEffect = false := by
    have := noexp_checkForEnvFiles host.readdir inputs.workingDirectory
    rw [hc] at this
    exact this
  have h3 := noexp_runLoadPhase inputs (host.exec 3) host.parse hsum
  cases hasEnv <;>
    simp [List.any_append, isExportEffect, h2, h3]

/-- In summary mode the full run emits no export or masking effect. -/
theorem noexp_run (host : Host) (getInput : String → String)
    (hsum : (getInputs getInput).showSummary = true) :
    (run host getInput).any isExportEffect = false := by
  unfold run
  have hW := noexp_runWithVarlock host (getInputs getInput) hsum
  have hInst := noexp_installVarlock (host.exec 1)
  cases hI : checkVarlockInstalled (host.exec 0) with
  | true => simp [isExportEffect, hW]
  | false =>
    cases hI2 : checkVarlockInstalled (host.exec 2) with
    | true => simp [List.any_append, isExportEffect, hW, hInst]
    | false => simp [List.any_append, isExportEffect, hW, hInst]

/-- With no graph and JSON output format, the output phase marks the run
failed. -/
theorem setFailed_mem_runOutputsPhase (inputs : ActionInputs) (res : LoadResult)
    (hg : res.envGraph = none) (hjson : inputs.outputFormat = "json") :
    HostEffect.setFailed "JSON output format requires valid varlock json-full output"
      ∈ runOutputsPhase inputs res := by
  unfold runOutputsPhase
  rw [hg]
  apply List.mem_append_left
  apply List.mem_append_left
  apply List.mem_append_right
  simp [hjson]

/-- In summary mode with JSON output format, the load phase always marks
the run failed (whether the load throws or returns). -/
theorem setFailed_mem_runLoadPhase (inputs : ActionInputs)
    (exec : String → ExecOutcome) (parse : String → Option SerializedEnvGraph)
    (hsum : inputs.showSummary = true) (hjson : inputs.outputFormat = "json") :
    ∃ m, HostEffect.setFailed m ∈ runLoadPhase inputs exec parse := by
  unfold runLoadPhase
  cases hr : runVarlockLoad exec parse inputs with
  | error err => exact ⟨"Action failed: " ++ err.message, by simp⟩
  | ok p =>
    obtain ⟨res, effects⟩ := p
    have hg := summary_graph_none exec parse inputs hsum res effects hr
    refine ⟨"JSON output format requires valid varlock json-full output", ?_⟩
    apply List.mem_cons_of_mem
    apply List.mem_append_right
    exact setFailed_mem_runOutputsPhase inputs res hg hjson

/-- In summary mode with JSON output format, the post-installation part
always marks the run failed. -/
theorem setFailed_mem_runWithVarlock (host : Host) (inputs : ActionInputs)
    (hsum : inputs.showSummary = true) (hjson : inputs.outputFormat = "json") :
    ∃ m, HostEffect.setFailed m ∈ runWithVarlock host inputs := by
  unfold runWithVarlock
  rcases hc : checkForEnvFiles host.readdir inputs.workingDirectory with ⟨hasEnv, envEff⟩
  cases hasEnv with
  | false => exact ⟨"No environment files found", by simp⟩
  | true =>
    obtain ⟨m, hm⟩ := setFailed_mem_runLoadPhase inputs (host.exec 3) host.parse hsum hjson
    refine ⟨m, ?_⟩
    apply List.mem_append_right
    apply List.mem_append_right
    simp only [if_true]
    exact List.mem_cons_of_mem _ hm

/-- C9: whenever `show-summary` is `true`, the load never returns a Result
Graph, the run exports no environment variable and registers no secret —
whatever the validator world would have produced — and with `output-format`
`json` the run is additionally marked failed. -/
theorem run_summary_claim (host : Host) (getInput : String → String)
    (h : getInput "show-summary" = "true") :
    (∀ res effects,
      runVarlockLoad (host.exec 3) host.parse (getInputs getInput) = .ok (res, effects) →
        res.envGraph = none)
    ∧ (∀ key value, HostEffect.exportVariable key value ∉ run host getInput)
    ∧ (∀ value, HostEffect.setSecret value ∉ run host getInput)
    ∧ (getInput "output-format" = "json" →
        ∃ msg, HostEffect.setFailed msg ∈ run host getInput) := by
  have hsum : (getInputs getInput).showSummary = true := by
    simp [getInputs, h]
  have hnoexp := noexp_run host getInput hsum
  refine ⟨?_, ?_, ?_, ?_⟩
  · intro res effects hok
    exact summary_graph_none (host.exec 3) host.parse (getInputs getInput) hsum res effects hok
  · intro key value hmem
    have : (run host getInput).any isExportEffect = true :=
      List.any_eq_true.mpr ⟨_, hmem, rfl⟩
    rw [hnoexp] at this
    exact Bool.noConfusion this
  · intro value hmem
    have : (run host getInput).any isExportEffect = true :=
      List.any_eq_true.mpr ⟨_, hmem, rfl⟩
    rw [hnoexp] at this
    exact Bool.noConfusion this
  · intro hjson0
    have hjson : (getInputs getInput).outputFormat = "json" := by
      simp [getInputs, hjson0]
    unfold run
    cases hI : checkVarlockInstalled (host.exec 0) with
    | true =>
      obtain ⟨m, hm⟩ := setFailed_mem_runWithVarlock host (getInputs getInput) hsum hjson
      exact ⟨m, by simp [hm]⟩
    | false =>
      cases hI2 : checkVarlockInstalled (host.exec 2) with
      | true =>
        obtain ⟨m, hm⟩ := setFailed_mem_runWithVarlock host (getInputs getInput) hsum hjson
        exact ⟨m, by simp [hm]⟩
      | false =>
        exact ⟨"Failed to install varlock", by simp⟩

/-- Witness for C9 at a concrete world: summary mode with JSON format, a
validator that succeeds, an env file present. -/
theorem run_summary_claim_witness :
    (∀ key value, HostEffect.exportVariable key value ∉
      run
        { exec := fun _ _ => .success "summary text",
          readdir := fun _ => some [".env"],
          parse := fun _ => none }
        (fun name => if name = "show-summary" then "true"
          else if name = "output-format" then "json" else ""))
    ∧ (∃ msg, HostEffect.setFailed msg ∈
      run
        { exec := fun _ _ => .success "summary text",
          readdir := fun _ => some [".env"],
          parse := fun _ => none }
        (fun name => if name = "show-summary" then "true"
          else if name = "output-format" then "json" else "")) := by
  have h := run_summary_claim
    { exec := fun _ _ => .success "summary text",
      readdir := fun _ => some [".env"],
      parse := fun _ => none }
    (fun name => if name = "show-summary" then "true"
      else if name = "output-format" then "json" else "")
    rfl
  exact ⟨h.2.1, h.2.2.2 rfl⟩

end VarlockAction
